import Mathlib

/-!
Verification of the mushroom / heart-particle scene (src/index.tsx and
src/FluorescentParticles.tsx) against its specification.

The embedding models the numeric state of the program over ℚ (the source
runs on JS doubles; all constants appearing in the claims are exactly
representable).  Values the source obtains from transcendental library
calls (Math.sin, Math.cos, quaternion normalisation) enter the model as
explicit inputs, constrained only by the range facts those calls
guarantee (for example sin and cos always land in [-1, 1], and a
normalised direction has unit norm).
-/

namespace Magic

/-- A 3-component vector over ℚ, modelling THREE.Vector3. -/
structure Vec3 where
  x : ℚ
  y : ℚ
  z : ℚ
deriving DecidableEq, Repr

/-- Componentwise sum, modelling THREE.Vector3.add. -/
def Vec3.add (a b : Vec3) : Vec3 := ⟨a.x + b.x, a.y + b.y, a.z + b.z⟩

/-- Componentwise difference, modelling THREE.Vector3.sub. -/
def Vec3.sub (a b : Vec3) : Vec3 := ⟨a.x - b.x, a.y - b.y, a.z - b.z⟩

/-- Scalar multiple, modelling THREE.Vector3.multiplyScalar. -/
def Vec3.smul (k : ℚ) (v : Vec3) : Vec3 := ⟨k * v.x, k * v.y, k * v.z⟩

/-- THREE.Vector3.lerp(v, alpha): each component moves by (v - this) * alpha. -/
def Vec3.lerp (a b : Vec3) (t : ℚ) : Vec3 :=
  ⟨a.x + (b.x - a.x) * t, a.y + (b.y - a.y) * t, a.z + (b.z - a.z) * t⟩

/-- Squared Euclidean norm of a vector. -/
def Vec3.normSq (v : Vec3) : ℚ := v.x * v.x + v.y * v.y + v.z * v.z

/-- Squared Euclidean distance between two points. -/
def distSq (a b : Vec3) : ℚ := Vec3.normSq (Vec3.sub b a)

/-- Sup-norm (componentwise) distance between two points; being within ε in
this distance is the same as every coordinate being within ε. -/
def distInf (a b : Vec3) : ℚ :=
  max (max |a.x - b.x| |a.y - b.y|) |a.z - b.z|

/-- A quaternion, modelling THREE.Quaternion (the camera orientation). -/
structure Quat where
  qx : ℚ
  qy : ℚ
  qz : ℚ
  qw : ℚ
deriving DecidableEq, Repr

/-- THREE.Vector3.applyQuaternion, exactly as implemented in three.js:
t = 2 (q.xyz × v), v + q.w t + q.xyz × t. -/
def Vec3.applyQuaternion (v : Vec3) (q : Quat) : Vec3 :=
  let tx := 2 * (q.qy * v.z - q.qz * v.y)
  let ty := 2 * (q.qz * v.x - q.qx * v.z)
  let tz := 2 * (q.qx * v.y - q.qy * v.x)
  ⟨v.x + q.qw * tx + (q.qy * tz - q.qz * ty),
   v.y + q.qw * ty + (q.qz * tx - q.qx * tz),
   v.z + q.qw * tz + (q.qx * ty - q.qy * tx)⟩

/-- An affine map on ℚ³, modelling the inverse world matrix that
THREE.Object3D.worldToLocal applies to a point. -/
structure Affine where
  m11 : ℚ
  m12 : ℚ
  m13 : ℚ
  m21 : ℚ
  m22 : ℚ
  m23 : ℚ
  m31 : ℚ
  m32 : ℚ
  m33 : ℚ
  tx : ℚ
  ty : ℚ
  tz : ℚ
deriving DecidableEq, Repr

/-- Apply the affine map to a point. -/
def Affine.apply (A : Affine) (v : Vec3) : Vec3 :=
  ⟨A.m11 * v.x + A.m12 * v.y + A.m13 * v.z + A.tx,
   A.m21 * v.x + A.m22 * v.y + A.m23 * v.z + A.ty,
   A.m31 * v.x + A.m32 * v.y + A.m33 * v.z + A.tz⟩

/-- The identity affine map. -/
def Affine.id : Affine := ⟨1, 0, 0, 0, 1, 0, 0, 0, 1, 0, 0, 0⟩

/-! ## Display-state controller (App, src/index.tsx lines 478-482)

`const [isHandOpen, setHandOpen] = useState(true);` and the scene passes
`isExploded={isHandOpen}` to HeartParticles (line 349). -/

/-- Initial value of the isHandOpen state: useState(true) in App. -/
def initialIsHandOpen : Bool := true

/-- The isExploded prop read by HeartParticles is exactly the isHandOpen
state passed down by MagicalScene (line 349). -/
def heartIsExploded (isHandOpen : Bool) : Bool := isHandOpen

/-- The isExploded value the particle evaluator reads on the first frame,
before any pointer or gesture input. -/
def initialHeartIsExploded : Bool := heartIsExploded initialIsHandOpen

/-! ## Gesture classifier handling (predictWebcam, src/index.tsx lines 440-448)

The top result of the classifier carries a category name and a score; the
handler writes the display state only for an explicit positive match with
score strictly above 0.5. -/

/-- The top gesture of one classifier result: category name and score. -/
structure GestureResult where
  categoryName : String
  score : ℚ
deriving DecidableEq, Repr

/-- One step of the display state under one classifier frame, from
predictWebcam: when there is a top gesture with score > 0.5, categoryName
"Closed_Fist" calls onGesture(false) and "Open_Palm" calls onGesture(true);
every other case leaves the state alone. -/
def predictUpdate (st : Bool) (g : Option GestureResult) : Bool :=
  match g with
  | none => st
  | some r =>
    if r.score > 0.5 then
      if r.categoryName = "Closed_Fist" then false
      else if r.categoryName = "Open_Palm" then true
      else st
    else st

/-! ## Particle creation (HeartParticles data memo, src/index.tsx lines 165-238) -/

/-- The three motion archetypes ('front' | 'surround' | 'scatter'). -/
inductive PType where
  | front
  | surround
  | scatter
deriving DecidableEq, Repr

/-- Archetype choice from the uniform draw `rand = Math.random()`:
rand < 0.116 gives front, else rand < 0.537 gives surround, else scatter
(lines 199-218). -/
def archetypeOf (u : ℚ) : PType :=
  if u < 0.116 then PType.front
  else if u < 0.537 then PType.surround
  else PType.scatter

/-- The fixed world target of a scatter particle: a direction vector scaled
by dist = 6 + u * 16 (u the uniform draw), plus (0, 2, 0)
(lines 214-217).  The direction comes from THREE's normalize() and is
passed in here; its unit length is a hypothesis of the theorems. -/
def mkScatterTarget (dir : Vec3) (u : ℚ) : Vec3 :=
  Vec3.add (Vec3.smul (6 + u * 16) dir) ⟨0, 2, 0⟩

/-- One particle: the descriptor fields are written once at creation and
the update step below only ever replaces currentPos. -/
structure Particle where
  home : Vec3
  ptype : PType
  offset : Vec3
  fixedTarget : Vec3
  color : Vec3
  rotSpeed : ℚ
  scale : ℚ
  phase : ℚ
  currentPos : Vec3
deriving DecidableEq, Repr

/-! ## Per-frame update (useFrame body, src/index.tsx lines 246-293) -/

/-- Everything one execution of the useFrame body feeds a single particle:
the display state, the frame delta, this particle's Math.random() jitter
draw, the camera pose, the mesh's world-to-local map, and the values of
the transcendental calls Math.sin(time + i*0.1), Math.cos(time*0.5 + i*0.1)
and Math.sin(time*5 + phase) for this particle index. -/
structure Frame where
  isExploded : Bool
  delta : ℚ
  rand : ℚ
  camPos : Vec3
  camQuat : Quat
  worldToLocal : Affine
  sinTI : ℚ
  cosTI : ℚ
  twinkle : ℚ
deriving Repr

/-- The camera position converted into the mesh's local space
(lines 251-252: camLocalPos.copy(camera.position); worldToLocal). -/
def camLocal (f : Frame) : Vec3 := f.worldToLocal.apply f.camPos

/-- The desired position computed for one particle on one frame
(lines 255-272): home when gathered; otherwise the archetype base plus the
shared oscillation added to y and x. -/
def desiredTarget (f : Frame) (p : Particle) : Vec3 :=
  if f.isExploded then
    let base : Vec3 :=
      match p.ptype with
      | PType.front =>
          f.worldToLocal.apply
            (Vec3.add (p.offset.applyQuaternion f.camQuat) f.camPos)
      | PType.surround => Vec3.add (camLocal f) p.offset
      | PType.scatter => p.fixedTarget
    ⟨base.x + f.cosTI * 0.1, base.y + f.sinTI * 0.2, base.z⟩
  else p.home

/-- The convergence speed: `const speed = isExploded ? 3 : 6` (line 248). -/
def speedOf (isExploded : Bool) : ℚ := if isExploded then 3 else 6

/-- The lerp factor of line 274: delta * speed * (0.8 + Math.random() * 0.4). -/
def lerpFactor (f : Frame) : ℚ :=
  f.delta * speedOf f.isExploded * (0.8 + f.rand * 0.4)

/-- One frame applied to one particle: line 274,
d.currentPos.lerp(target, delta * speed * (0.8 + Math.random() * 0.4)).
No other field of the particle record is written anywhere in the frame
callback. -/
def updateParticle (f : Frame) (p : Particle) : Particle :=
  { p with currentPos := p.currentPos.lerp (desiredTarget f p) (lerpFactor f) }

/-- A run of frames applied in order to one particle. -/
def applyFrames (fs : List Frame) (p : Particle) : Particle :=
  fs.foldl (fun q f => updateParticle f q) p

/-- The trajectory of one particle under a stream of frames: state after n
frames. -/
def particleSeq (fs : ℕ → Frame) (p : Particle) : ℕ → Particle
  | 0 => p
  | n + 1 => updateParticle (fs n) (particleSeq fs p n)

/-- Affine interpolation with factor k, the spec's reading of one lerp
step: the point (1 - k) * a + k * b. -/
def affineLerp (k : ℚ) (a b : Vec3) : Vec3 :=
  ⟨(1 - k) * a.x + k * b.x, (1 - k) * a.y + k * b.y, (1 - k) * a.z + k * b.z⟩

/-- The twinkle boost of lines 285-286:
intensity = 1.5 + (twinkle > 0.5 ? twinkle * 2 : 0). -/
def intensity (twinkle : ℚ) : ℚ :=
  1.5 + (if twinkle > 0.5 then twinkle * 2 else 0)

/-- The instance color written on line 287-288:
tempColor.copy(d.color).multiplyScalar(intensity). -/
def writtenColor (color : Vec3) (twinkle : ℚ) : Vec3 :=
  Vec3.smul (intensity twinkle) color

/-! ## Look-around rig (Rig, src/index.tsx lines 309-326) and the hand
landmark handoff (predictWebcam, lines 452-459) -/

/-- The x component handed to onHandMove: (centerPoint.x - 0.5) * 2
(line 456); no validation or clamping is applied. -/
def handMoveX (cx : ℚ) : ℚ := (cx - 0.5) * 2

/-- The rotation target the Rig computes each frame from the look input
(lines 315-321): handPos.x * 3.0 in camera mode, the raw pointer x
otherwise. -/
def rigTargetX (cameraEnabled : Bool) (handX pointerX : ℚ) : ℚ :=
  if cameraEnabled then handX * 3 else pointerX

/-- Clamp a rational to [lo, hi]. -/
def clampQ (v lo hi : ℚ) : ℚ := max lo (min v hi)

/-- Modelled from the spec: the recommended defensive contract of §7, under
which the core would clamp each lookVector component to [-1, 1] before
scaling it; the source contains no such clamp, this definition exists only
to compare the code against the spec's words. -/
def rigTargetXSpecClamped (handX : ℚ) : ℚ := clampQ handX (-1) 1 * 3

/-! ## Concrete sample inputs used by the witnesses -/

/-- A concrete gathered frame: delta 1/12 and jitter draw 1/2 make the
lerp factor exactly 1/12 * 6 * (0.8 + 0.2) = 1/2. -/
def egFrame : Frame := ⟨false, 1/12, 1/2, ⟨0, 0, 0⟩, ⟨0, 0, 0, 1⟩, Affine.id, 0, 0, 0⟩

/-- The same frame with the display state exploded. -/
def egFrameEx : Frame := { egFrame with isExploded := true }

/-- A frame with its delta halved, all other inputs identical: two of these
cover the same elapsed time as the original frame. -/
def halveDelta (f : Frame) : Frame := { f with delta := f.delta / 2 }

/-- A concrete scatter particle sitting one unit away from its home. -/
def egParticle : Particle :=
  ⟨⟨0, 0, 0⟩, PType.scatter, ⟨0, 0, 0⟩, ⟨0, 0, 0⟩, ⟨1, 1, 1⟩, 0, 1/10, 0, ⟨1, 0, 0⟩⟩

end Magic

namespace Magic

/-! ## Helper lemmas -/

/-- The home field survives along any trajectory. -/
lemma particleSeq_home (fs : ℕ → Frame) (p : Particle) (n : ℕ) :
    (particleSeq fs p n).home = p.home := by
  induction n with
  | zero => rfl
  | succ n ih => simpa [particleSeq, updateParticle] using ih

/-- One lerp step with factor between lo and 1 shrinks the distance to the
target by at least the factor 1 - lo. -/
lemma lerp_abs_decay (a h F lo : ℚ) (h1 : lo ≤ F) (h2 : F ≤ 1) :
    |a + (h - a) * F - h| ≤ |a - h| * (1 - lo) := by
  have he : a + (h - a) * F - h = (a - h) * (1 - F) := by ring
  rw [he, abs_mul, abs_of_nonneg (by linarith : (0 : ℚ) ≤ 1 - F)]
  exact mul_le_mul_of_nonneg_left (by linarith) (abs_nonneg _)

/-- Being within c in sup distance is exactly each coordinate within c. -/
lemma distInf_le_iff (a b : Vec3) (c : ℚ) :
    distInf a b ≤ c ↔ |a.x - b.x| ≤ c ∧ |a.y - b.y| ≤ c ∧ |a.z - b.z| ≤ c := by
  simp [distInf, max_le_iff, and_assoc]

/-- Each coordinate difference is below the sup distance. -/
lemma abs_le_distInf (a b : Vec3) :
    |a.x - b.x| ≤ distInf a b ∧ |a.y - b.y| ≤ distInf a b ∧
      |a.z - b.z| ≤ distInf a b :=
  ⟨(le_max_left _ _).trans (le_max_left _ _),
   (le_max_right _ _).trans (le_max_left _ _),
   le_max_right _ _⟩

/-- The sup distance is nonnegative. -/
lemma distInf_nonneg (a b : Vec3) : 0 ≤ distInf a b :=
  (abs_nonneg _).trans (abs_le_distInf a b).1

/-- Geometric decay of the sup distance to home along a gathered
trajectory whose lerp factors stay in [lo, hi] with hi < 1. -/
lemma particleSeq_bound (fs : ℕ → Frame) (p : Particle) (lo hi : ℚ)
    (hg : ∀ n, (fs n).isExploded = false) (hhi : hi < 1)
    (hF : ∀ n, lo ≤ lerpFactor (fs n) ∧ lerpFactor (fs n) ≤ hi) (n : ℕ) :
    distInf (particleSeq fs p n).currentPos p.home ≤
      distInf p.currentPos p.home * (1 - lo) ^ n := by
  induction n with
  | zero => simp [particleSeq]
  | succ n ih =>
      have hstep : (particleSeq fs p (n + 1)).currentPos =
          Vec3.lerp (particleSeq fs p n).currentPos p.home
            (lerpFactor (fs n)) := by
        have hh := particleSeq_home fs p n
        simp [particleSeq, updateParticle, desiredTarget, hg n, hh]
      have hF1 := (hF n).1
      have hF2 : lerpFactor (fs n) ≤ 1 := (hF n).2.trans hhi.le
      have hcomp := abs_le_distInf (particleSeq fs p n).currentPos p.home
      have hstepc : ∀ an hn : ℚ,
          |an - hn| ≤ distInf (particleSeq fs p n).currentPos p.home →
          |an + (hn - an) * lerpFactor (fs n) - hn| ≤
            distInf p.currentPos p.home * (1 - lo) ^ (n + 1) := by
        intro an hn hle
        calc |an + (hn - an) * lerpFactor (fs n) - hn| ≤
            |an - hn| * (1 - lo) := lerp_abs_decay an hn _ lo hF1 hF2
          _ ≤ (distInf p.currentPos p.home * (1 - lo) ^ n) * (1 - lo) := by
              have hr0 : (0 : ℚ) ≤ 1 - lo := by
                have := hF1.trans hF2
                linarith
              exact mul_le_mul_of_nonneg_right (hle.trans ih) hr0
          _ = distInf p.currentPos p.home * (1 - lo) ^ (n + 1) := by ring
      rw [hstep, distInf_le_iff]
      simp only [Vec3.lerp]
      exact ⟨hstepc _ _ hcomp.1, hstepc _ _ hcomp.2.1, hstepc _ _ hcomp.2.2⟩

/-! ## Claim theorems -/

/-- C1 counterexample: the claim says the isExploded read by the particle
evaluator is false at program start, but App initializes isHandOpen with
useState(true), so the evaluator reads true on the first frame. -/
theorem C1_counterexample : ¬ (initialHeartIsExploded = false) := by decide

/-- C1 (amended): the display-state controller has exactly two states (a
single boolean) and starts in Exploded: before any pointer or gesture
input the authoritative isExploded read by the particle evaluator is true. -/
theorem C1_initial_state :
    (∀ s : Bool, s = true ∨ s = false) ∧ initialHeartIsExploded = true :=
  ⟨fun s => by cases s <;> simp, rfl⟩

/-- C2: in camera mode the state is written if and only if the top gesture
is an explicit positive match with score strictly above 0.5: Open_Palm
sets Exploded (true), Closed_Fist sets Gathered (false), and any other
category, any score at or below 0.5, or an empty result leaves the state
unchanged. -/
theorem C2_gesture_transition :
    (∀ (st : Bool) (s : ℚ), s > 0.5 →
        predictUpdate st (some ⟨"Open_Palm", s⟩) = true) ∧
    (∀ (st : Bool) (s : ℚ), s > 0.5 →
        predictUpdate st (some ⟨"Closed_Fist", s⟩) = false) ∧
    (∀ (st : Bool) (r : GestureResult), r.score ≤ 0.5 →
        predictUpdate st (some r) = st) ∧
    (∀ (st : Bool) (r : GestureResult),
        r.categoryName ≠ "Open_Palm" → r.categoryName ≠ "Closed_Fist" →
        predictUpdate st (some r) = st) ∧
    (∀ st : Bool, predictUpdate st none = st) := by
  refine ⟨?_, ?_, ?_, ?_, ?_⟩
  · intro st s hs; simp [predictUpdate, hs]
  · intro st s hs; simp [predictUpdate, hs]
  · intro st r hr; simp [predictUpdate, not_lt.mpr hr]
  · intro st r h1 h2; simp [predictUpdate, h1, h2]
  · intro st; rfl

/-- Witness for C2 at concrete inputs: score 0.6 with Open_Palm flips a
gathered state to exploded, and a score of exactly 0.5 changes nothing. -/
theorem C2_witness :
    ((0.6 : ℚ) > 0.5 ∧ predictUpdate false (some ⟨"Open_Palm", 0.6⟩) = true) ∧
    ((0.5 : ℚ) ≤ 0.5 ∧ predictUpdate true (some ⟨"Open_Palm", 0.5⟩) = true) :=
  ⟨⟨by norm_num, C2_gesture_transition.1 false 0.6 (by norm_num)⟩,
   ⟨le_refl _, C2_gesture_transition.2.2.1 true ⟨"Open_Palm", 0.5⟩ (le_refl _)⟩⟩

/-- C4: the archetype draw partitions the unit interval exactly: on [0,1),
u < 0.116 is front, 0.116 ≤ u < 0.537 is surround, 0.537 ≤ u is scatter,
and the three interval lengths are exactly 11.6%, 42.1% and 46.3%. -/
theorem C4_archetype_partition :
    (∀ u : ℚ, 0 ≤ u → u < 1 →
      ((archetypeOf u = PType.front ↔ u < 0.116) ∧
       (archetypeOf u = PType.surround ↔ 0.116 ≤ u ∧ u < 0.537) ∧
       (archetypeOf u = PType.scatter ↔ 0.537 ≤ u))) ∧
    (0.116 : ℚ) = 116 / 1000 ∧ ((0.537 : ℚ) - 0.116) = 421 / 1000 ∧
    ((1 : ℚ) - 0.537) = 463 / 1000 := by
  refine ⟨?_, by norm_num, by norm_num, by norm_num⟩
  intro u _ _
  unfold archetypeOf
  split_ifs with h h'
  · exact ⟨iff_of_true rfl h,
      iff_of_false (by decide) (fun hc => absurd hc.1 (not_le.mpr h)),
      iff_of_false (by decide) (fun hc => by linarith)⟩
  · exact ⟨iff_of_false (by decide) h,
      iff_of_true rfl ⟨not_lt.mp h, h'⟩,
      iff_of_false (by decide) (fun hc => absurd h' (not_lt.mpr hc))⟩
  · exact ⟨iff_of_false (by decide) h,
      iff_of_false (by decide) (fun hc => h' hc.2),
      iff_of_true rfl (not_lt.mp h')⟩

/-- Witness for C4 at u = 0.3: the draw lands in the surround band. -/
theorem C4_witness :
    (0 : ℚ) ≤ 0.3 ∧ (0.3 : ℚ) < 1 ∧
      (archetypeOf 0.3 = PType.surround ↔ (0.116 : ℚ) ≤ 0.3 ∧ (0.3 : ℚ) < 0.537) :=
  ⟨by norm_num, by norm_num,
   (C4_archetype_partition.1 0.3 (by norm_num) (by norm_num)).2.1⟩

/-- C9 counterexample: the claim says out-of-range lookVector components
are clamped to [-1,1] before use.  A hand landmark at x = 1.5 produces the
lookVector component 2, and the Rig then uses the raw value: its rotation
target is 6, where the clamped contract would give 3. -/
theorem C9_counterexample :
    handMoveX 1.5 = 2 ∧ rigTargetX true 2 0 = 6 ∧ rigTargetXSpecClamped 2 = 3 ∧
      rigTargetX true 2 0 ≠ rigTargetXSpecClamped 2 := by
  refine ⟨?_, ?_, ?_, ?_⟩ <;>
    norm_num [handMoveX, rigTargetX, rigTargetXSpecClamped, clampQ]

/-- C9 (amended): the core performs no clamping: in camera mode the Rig
uses the raw lookVector component times 3.0 as its rotation target, so
every component with absolute value above 1 yields a target different from
the one the spec's clamped contract would give. -/
theorem C9_no_clamping (hx px : ℚ) (h : 1 < |hx|) :
    rigTargetX true hx px ≠ rigTargetXSpecClamped hx := by
  rcases lt_abs.mp h with h1 | h1
  · have hmin : min hx 1 = 1 := min_eq_right (by linarith)
    have hcl : clampQ hx (-1) 1 = 1 := by
      rw [clampQ, hmin]; exact max_eq_right (by norm_num)
    simp only [rigTargetX, rigTargetXSpecClamped, if_true, hcl]
    intro hc; nlinarith
  · have hmin : min hx 1 = hx := min_eq_left (by linarith)
    have hcl : clampQ hx (-1) 1 = -1 := by
      rw [clampQ, hmin]; exact max_eq_left (by linarith)
    simp only [rigTargetX, rigTargetXSpecClamped, if_true, hcl]
    intro hc; nlinarith

/-- Witness for C9 at the concrete out-of-range component 2. -/
theorem C9_witness :
    (1 : ℚ) < |(2 : ℚ)| ∧ rigTargetX true 2 0 ≠ rigTargetXSpecClamped 2 :=
  ⟨by norm_num, C9_no_clamping 2 0 (by norm_num)⟩

/-- C10: the written instance color is the base color times a factor that
always lies in [1.5, 3.5]; when the twinkle sample is at or below the 0.5
threshold the factor is exactly 1.5, so the rendered color never drops to
or below the base brightness. -/
theorem C10_color_boost (tw : ℚ) (c : Vec3) (hlow : -1 ≤ tw) (hhigh : tw ≤ 1) :
    ∃ k, writtenColor c tw = Vec3.smul k c ∧ 3/2 ≤ k ∧ k ≤ 7/2 ∧
      (tw ≤ 1/2 → k = 3/2) := by
  have hlow' : (-1 : ℚ) ≤ tw := hlow
  refine ⟨intensity tw, rfl, ?_, ?_, ?_⟩
  · unfold intensity; split_ifs with h
    · norm_num at h ⊢; linarith
    · norm_num
  · unfold intensity; split_ifs with h
    · norm_num at h ⊢; linarith
    · norm_num
  · intro hle; unfold intensity
    split_ifs with h
    · exfalso
      rw [show (0.5 : ℚ) = 1/2 by norm_num] at h
      linarith
    · norm_num

/-- Witness for C10 at twinkle sample 0 on base color (1,1,1). -/
theorem C10_witness :
    (-1 : ℚ) ≤ 0 ∧ (0 : ℚ) ≤ 1 ∧
      ∃ k, writtenColor ⟨1, 1, 1⟩ 0 = Vec3.smul k ⟨1, 1, 1⟩ ∧ 3/2 ≤ k ∧ k ≤ 7/2 ∧
        ((0 : ℚ) ≤ 1/2 → k = 3/2) :=
  ⟨by norm_num, by norm_num, C10_color_boost 0 ⟨1, 1, 1⟩ (by norm_num) (by norm_num)⟩

/-- C3: each frame the new currentPosition is the affine interpolation of
the old currentPosition toward the frame's desired target with factor
deltaTime * speed * (0.8 + r * 0.4) for the frame's jitter draw r in
[0,1), where speed is 3 when exploded and 6 when gathered. -/
theorem C3_lerp_step (f : Frame) (p : Particle)
    (h0 : 0 ≤ f.rand) (h1 : f.rand < 1) :
    ∃ r, 0 ≤ r ∧ r < 1 ∧
      (updateParticle f p).currentPos =
        affineLerp (f.delta * (if f.isExploded then 3 else 6) * (0.8 + r * 0.4))
          p.currentPos (desiredTarget f p) := by
  refine ⟨f.rand, h0, h1, ?_⟩
  simp only [updateParticle, Vec3.lerp, affineLerp, lerpFactor, speedOf,
    Vec3.mk.injEq]
  refine ⟨by ring, by ring, by ring⟩

/-- Witness for C3 on the sample gathered frame and particle. -/
theorem C3_witness :
    (0 : ℚ) ≤ egFrame.rand ∧ egFrame.rand < 1 ∧
      ∃ r, 0 ≤ r ∧ r < 1 ∧
        (updateParticle egFrame egParticle).currentPos =
          affineLerp
            (egFrame.delta * (if egFrame.isExploded then 3 else 6) *
              (0.8 + r * 0.4))
            egParticle.currentPos (desiredTarget egFrame egParticle) :=
  ⟨by norm_num [egFrame], by norm_num [egFrame],
   C3_lerp_step egFrame egParticle (by norm_num [egFrame]) (by norm_num [egFrame])⟩

/-- C6: over any sequence of frames and isExploded toggles the creation
fields home, archetype, offset and fixedTarget are never modified; the
only write to currentPos is the per-frame interpolation step — it moves
the old currentPos toward the desired target by the lerp factor, and the
display state influences it only through that target and factor (no
branch resets the position on a state change). -/
theorem C6_immutability :
    (∀ (fs : List Frame) (p : Particle),
        (applyFrames fs p).home = p.home ∧
        (applyFrames fs p).ptype = p.ptype ∧
        (applyFrames fs p).offset = p.offset ∧
        (applyFrames fs p).fixedTarget = p.fixedTarget) ∧
    (∀ (f : Frame) (p : Particle),
        updateParticle f p =
          { p with currentPos :=
              (Vec3.add p.currentPos
                (Vec3.smul (lerpFactor f)
                  (Vec3.sub (desiredTarget f p) p.currentPos))) }) ∧
    (∀ (f g : Frame) (p : Particle),
        desiredTarget f p = desiredTarget g p → lerpFactor f = lerpFactor g →
        (updateParticle f p).currentPos = (updateParticle g p).currentPos) := by
  refine ⟨?_, ?_, ?_⟩
  · intro fs
    induction fs with
    | nil => intro p; exact ⟨rfl, rfl, rfl, rfl⟩
    | cons f fs ih =>
        intro p
        have h := ih (updateParticle f p)
        simpa [applyFrames, updateParticle] using h
  · intro f p
    have hv : p.currentPos.lerp (desiredTarget f p) (lerpFactor f) =
        Vec3.add p.currentPos
          (Vec3.smul (lerpFactor f)
            (Vec3.sub (desiredTarget f p) p.currentPos)) := by
      simp only [Vec3.lerp, Vec3.add, Vec3.smul, Vec3.sub, Vec3.mk.injEq]
      refine ⟨by ring, by ring, by ring⟩
    simp only [updateParticle, hv]
  · intro f g p ht hf
    simp only [updateParticle, ht, hf]

/-- Witness for C6's third conjunct at the sample frame and particle. -/
theorem C6_witness :
    desiredTarget egFrame egParticle = desiredTarget egFrame egParticle ∧
      lerpFactor egFrame = lerpFactor egFrame ∧
      (updateParticle egFrame egParticle).currentPos =
        (updateParticle egFrame egParticle).currentPos :=
  ⟨rfl, rfl, C6_immutability.2.2 egFrame egFrame egParticle rfl rfl⟩

/-- C7: a scatter particle's fixed target is a unit direction scaled by
6 + u * 16 (which lies in [6, 22] for u in [0,1)) plus the vertical bias
(0, 2, 0) — its squared distance from (0, 2, 0) is exactly that scale
squared; while exploded its desired position is the fixed target plus only
the shared oscillation term, and any two frames with the same oscillation
samples give the same desired position whatever their cameras are. -/
theorem C7_scatter_target (dv : Vec3) (u : ℚ) (f g : Frame) (p : Particle)
    (hdir : dv.normSq = 1) (hu0 : 0 ≤ u) (hu1 : u < 1)
    (hp : p.ptype = PType.scatter)
    (he : f.isExploded = true) (hg : g.isExploded = true)
    (hs : f.sinTI = g.sinTI) (hc : f.cosTI = g.cosTI) :
    (distSq (mkScatterTarget dv u) ⟨0, 2, 0⟩ = (6 + u * 16) ^ 2 ∧
      6 ≤ 6 + u * 16 ∧ 6 + u * 16 ≤ 22) ∧
    desiredTarget f p =
      ⟨p.fixedTarget.x + f.cosTI * 0.1, p.fixedTarget.y + f.sinTI * 0.2,
        p.fixedTarget.z⟩ ∧
    desiredTarget f p = desiredTarget g p := by
  have key : ∀ h : Frame, h.isExploded = true →
      desiredTarget h p =
        ⟨p.fixedTarget.x + h.cosTI * 0.1, p.fixedTarget.y + h.sinTI * 0.2,
          p.fixedTarget.z⟩ := by
    intro h hh
    simp [desiredTarget, hh, hp]
  refine ⟨⟨?_, by linarith, by linarith⟩, key f he, ?_⟩
  · simp only [distSq, mkScatterTarget, Vec3.normSq, Vec3.sub, Vec3.add,
      Vec3.smul] at hdir ⊢
    linear_combination (6 + u * 16) ^ 2 * hdir
  · rw [key f he, key g hg, hs, hc]

/-- Witness for C7 at the unit direction (1,0,0), draw 0, and the sample
exploded frame and scatter particle. -/
theorem C7_witness :
    Vec3.normSq ⟨1, 0, 0⟩ = 1 ∧ (0 : ℚ) ≤ 0 ∧ (0 : ℚ) < 1 ∧
      egParticle.ptype = PType.scatter ∧ egFrameEx.isExploded = true ∧
      (distSq (mkScatterTarget ⟨1, 0, 0⟩ 0) ⟨0, 2, 0⟩ = (6 + 0 * 16) ^ 2 ∧
        (6 : ℚ) ≤ 6 + 0 * 16 ∧ (6 : ℚ) + 0 * 16 ≤ 22) :=
  ⟨by norm_num [Vec3.normSq], le_refl _, by norm_num, rfl, rfl,
   (C7_scatter_target ⟨1, 0, 0⟩ 0 egFrameEx egFrameEx egParticle
      (by norm_num [Vec3.normSq]) (le_refl _) (by norm_num) rfl rfl rfl rfl rfl).1⟩

/-- C8 counterexample: the claim says subdividing deltaTime leaves the
positions unchanged.  On the sample gathered particle one unit from home,
one frame of delta 1/12 (lerp factor 1/2) moves x to 1/2, while two frames
of delta 1/24 (factor 1/4 each) move x to 9/16. -/
theorem C8_counterexample :
    (updateParticle egFrame egParticle).currentPos ≠
      (updateParticle (halveDelta egFrame)
        (updateParticle (halveDelta egFrame) egParticle)).currentPos := by
  simp only [updateParticle, desiredTarget, lerpFactor, speedOf, halveDelta,
    egFrame, egParticle, Vec3.lerp]
  norm_num [Vec3.mk.injEq]

/-- C8 (amended): the interpolation step is not frame-rate independent:
for any gathered particle not already at its home and any nonzero lerp
factor, two half-delta steps land at a different position than the single
full-delta step covering the same elapsed time (exact invariance would
need the exponential-decay form the spec proposes for a rewrite). -/
theorem C8_not_framerate_independent (f : Frame) (p : Particle)
    (hg : f.isExploded = false) (hne : p.currentPos.x ≠ p.home.x)
    (hf : lerpFactor f ≠ 0) :
    (updateParticle f p).currentPos ≠
      (updateParticle (halveDelta f) (updateParticle (halveDelta f) p)).currentPos := by
  have hgh : (halveDelta f).isExploded = false := hg
  have hfh : lerpFactor (halveDelta f) = lerpFactor f / 2 := by
    simp only [lerpFactor, halveDelta, speedOf, hg]
    ring
  intro heq
  have hx := congrArg Vec3.x heq
  simp only [updateParticle, desiredTarget, hg, hgh, Vec3.lerp, hfh,
    if_neg Bool.false_ne_true] at hx
  set a := p.currentPos.x
  set h := p.home.x
  set F := lerpFactor f
  have hzero : (h - a) * F ^ 2 = 0 := by linear_combination (4 : ℚ) * hx
  rcases mul_eq_zero.mp hzero with h0 | h0
  · exact hne (by linarith)
  · exact hf (sq_eq_zero_iff.mp h0)

/-- C5: from any starting position, if the display state stays gathered
and the per-frame lerp factors stay inside a band [lo, hi] of (0,1), then
for every positive ε the particle comes and stays within ε of its home in
sup distance. -/
theorem C5_gathered_convergence (fs : ℕ → Frame) (p : Particle) (lo hi ε : ℚ)
    (hg : ∀ n, (fs n).isExploded = false)
    (hlo : 0 < lo) (hhi : hi < 1)
    (hF : ∀ n, lo ≤ lerpFactor (fs n) ∧ lerpFactor (fs n) ≤ hi)
    (hε : 0 < ε) :
    ∃ N, ∀ n, N ≤ n →
      distInf (particleSeq fs p n).currentPos p.home ≤ ε := by
  have hlo1 : lo < 1 := lt_of_le_of_lt ((hF 0).1.trans (hF 0).2) hhi
  have hr0 : (0 : ℚ) ≤ 1 - lo := by linarith
  have hr1 : (1 : ℚ) - lo < 1 := by linarith
  have hD0 : 0 ≤ distInf p.currentPos p.home := distInf_nonneg _ _
  have hbound := particleSeq_bound fs p lo hi hg hhi hF
  by_cases hcase : distInf p.currentPos p.home ≤ ε
  · refine ⟨0, fun n _ => ?_⟩
    calc distInf (particleSeq fs p n).currentPos p.home ≤
        distInf p.currentPos p.home * (1 - lo) ^ n := hbound n
      _ ≤ distInf p.currentPos p.home * 1 :=
          mul_le_mul_of_nonneg_left (pow_le_one₀ hr0 hr1.le) hD0
      _ = distInf p.currentPos p.home := mul_one _
      _ ≤ ε := hcase
  · push_neg at hcase
    have hD0' : 0 < distInf p.currentPos p.home := lt_trans hε hcase
    obtain ⟨N, hN⟩ := exists_pow_lt_of_lt_one (div_pos hε hD0') hr1
    refine ⟨N, fun n hn => ?_⟩
    calc distInf (particleSeq fs p n).currentPos p.home ≤
        distInf p.currentPos p.home * (1 - lo) ^ n := hbound n
      _ ≤ distInf p.currentPos p.home * (1 - lo) ^ N :=
          mul_le_mul_of_nonneg_left (pow_le_pow_of_le_one hr0 hr1.le hn) hD0
      _ ≤ distInf p.currentPos p.home * (ε / distInf p.currentPos p.home) :=
          mul_le_mul_of_nonneg_left hN.le hD0
      _ = ε := by
          rw [mul_comm]
          exact div_mul_cancel₀ ε (ne_of_gt hD0')

/-- Witness for C5: the constant sample gathered frame has lerp factor
exactly 1/2, so with lo = hi = 1/2 and ε = 1 the convergence theorem
applies to the sample particle. -/
theorem C5_witness :
    (∀ n : ℕ, ((fun _ : ℕ => egFrame) n).isExploded = false) ∧
      (0 : ℚ) < 1/2 ∧ (1/2 : ℚ) < 1 ∧
      (∀ n : ℕ, (1/2 : ℚ) ≤ lerpFactor ((fun _ : ℕ => egFrame) n) ∧
        lerpFactor ((fun _ : ℕ => egFrame) n) ≤ 1/2) ∧
      (0 : ℚ) < 1 ∧
      ∃ N, ∀ n, N ≤ n →
        distInf (particleSeq (fun _ : ℕ => egFrame) egParticle n).currentPos
          egParticle.home ≤ 1 :=
  ⟨fun _ => rfl, by norm_num, by norm_num,
   fun _ => by norm_num [lerpFactor, egFrame, speedOf], by norm_num,
   C5_gathered_convergence (fun _ : ℕ => egFrame) egParticle (1/2) (1/2) 1
     (fun _ => rfl) (by norm_num) (by norm_num)
     (fun _ => by norm_num [lerpFactor, egFrame, speedOf]) (by norm_num)⟩

/-- Witness for C8 at the sample gathered frame and particle. -/
theorem C8_witness :
    egFrame.isExploded = false ∧
      egParticle.currentPos.x ≠ egParticle.home.x ∧
      lerpFactor egFrame ≠ 0 ∧
      (updateParticle egFrame egParticle).currentPos ≠
        (updateParticle (halveDelta egFrame)
          (updateParticle (halveDelta egFrame) egParticle)).currentPos :=
  ⟨rfl, by norm_num [egParticle], by norm_num [lerpFactor, egFrame, speedOf],
   C8_not_framerate_independent egFrame egParticle rfl
     (by norm_num [egParticle]) (by norm_num [lerpFactor, egFrame, speedOf])⟩

end Magic
